import Mathlib

/-!
Shallow embedding of `linkhub.py`: the link store, persistence adapter and
query layer of the Link Hub application, together with the admin handlers
`admin_add` and `admin_delete` and the lookup of `redirect_link`.

The durable document `links.json` is modelled by an explicit filesystem
state `FS`; the clock reading `datetime.utcnow().isoformat()` is an
arbitrary string parameter `now` (the code appends `'Z'` to it).
-/

namespace LinkHub

/-- Error kinds surfaced by the handlers: `abort(403)`, `abort(400)`,
`abort(404)`, and an uncaught exception from a failed write in
`save_links`. -/
inductive Err where
  | forbidden
  | validationError
  | notFound
  | storageUnavailable
deriving DecidableEq

/-- One record of `links.json`: the dictionary built in `admin_add` and
seeded by `DEFAULT_LINKS`. -/
structure Link where
  id : Int
  title : String
  url : String
  notes : String
  category : String
  created : String
deriving DecidableEq

/-- The durable document as the adapter can observe it: absent on disk,
present and parsing to a list of links, present but failing `json.load`
(corrupt), or present but failing `open` (for example a permission
error). -/
inductive DocState where
  | absent
  | parses (links : List Link)
  | corrupt
  | unreadable
deriving DecidableEq

/-- The filesystem around `DATA_FILE`: the document's state and whether a
write (`open(..., 'w')` in `save_links`) succeeds. -/
structure FS where
  doc : DocState
  writable : Bool
deriving DecidableEq

/-- `datetime.utcnow().isoformat() + 'Z'`: the clock reading with `'Z'`
appended. -/
def timestamp (now : String) : String := now ++ "Z"

/-- The whitespace characters Python's `str.strip()` removes (the ASCII
ones; the embedding restricts strings to ASCII text). -/
def pySpace (c : Char) : Bool :=
  c == ' ' || c == '\t' || c == '\n' || c == '\r' || c == '\x0b' || c == '\x0c'

/-- Python `s.strip()`: drop whitespace from both ends. -/
def pyStrip (s : String) : String :=
  ⟨((s.data.dropWhile pySpace).reverse.dropWhile pySpace).reverse⟩

/-- Python `s.lower()` (on ASCII text): lower each character. -/
def pyLower (s : String) : String := ⟨s.data.map Char.toLower⟩

/-- The module-level `DEFAULT_LINKS` list (`created` is `""` until
`load_links` stamps it while seeding). -/
def DEFAULT_LINKS : List Link :=
  [ { id := 1, title := "Google", url := "https://www.google.com",
      notes := "Search", category := "Search", created := "" },
    { id := 2, title := "GitHub", url := "https://github.com",
      notes := "Code hosting", category := "Dev", created := "" },
    { id := 3, title := "YouTube", url := "https://www.youtube.com",
      notes := "Videos", category := "Media", created := "" } ]

/-- The seed written by `load_links` when the document is absent:
`DEFAULT_LINKS` with each `created` set to the current timestamp. -/
def seededLinks (now : String) : List Link :=
  DEFAULT_LINKS.map (fun l => { l with created := timestamp now })

/-- `save_links(links)`: overwrite the document with the serialized
collection; an unwritable filesystem raises, surfaced as
`storageUnavailable`. -/
def save_links (links : List Link) (fs : FS) : Except Err FS :=
  if fs.writable then .ok { fs with doc := .parses links }
  else .error .storageUnavailable

/-- `load_links()`: seed the document with `DEFAULT_LINKS` when it does
not exist (an exception from that `save_links` call propagates), then
`open` and `json.load` it inside `try/except Exception: return []` — any
read or parse failure yields the empty collection. -/
def load_links (fs : FS) (now : String) : Except Err (List Link × FS) :=
  match fs.doc with
  | .absent =>
      match save_links (seededLinks now) fs with
      | .error e => .error e
      | .ok fs1 =>
          match fs1.doc with
          | .parses ls => .ok (ls, fs1)
          | _ => .ok ([], fs1)
  | .parses ls => .ok (ls, fs)
  | .corrupt => .ok ([], fs)
  | .unreadable => .ok ([], fs)

/-- Python's `max` over a non-empty sequence: a left fold of binary `max`
started from the first element. -/
def pyMax (x : Int) (xs : List Int) : Int := xs.foldl max x

/-- `next_id(links)`: `1` for an empty collection, otherwise
`max(l.get('id', 0) for l in links) + 1`. -/
def next_id (links : List Link) : Int :=
  match links with
  | [] => 1
  | l :: ls => pyMax l.id (ls.map (fun x => x.id)) + 1

/-- The characters `urllib.parse` permits inside a scheme:
ASCII letters, digits, `+`, `-` and `.`. -/
def schemeChar (c : Char) : Bool :=
  c.isAlpha || c.isDigit || c == '+' || c == '-' || c == '.'

/-- `urlparse(url).scheme` is non-empty: the first `:` of the url sits
after a non-empty run of scheme characters starting with an ASCII
letter. -/
def hasScheme (url : String) : Bool :=
  let cs := url.data
  let pre := cs.takeWhile (fun c => !(c == ':'))
  cs.contains ':' && !pre.isEmpty &&
    (match pre with
     | [] => false
     | c :: _ => c.isAlpha) &&
    pre.all schemeChar

/-- The minimal URL normalization of `admin_add`: prepend `https://` when
`urlparse(url).scheme` is empty. -/
def normalize_url (url : String) : String :=
  if hasScheme url then url else "https://" ++ url

/-- `needle` is a leading block of `hay`. -/
def headMatch (needle hay : List Char) : Bool :=
  match needle, hay with
  | [], _ => true
  | _ :: _, [] => false
  | c :: cs, d :: ds => c == d && headMatch cs ds

/-- `needle` occurs contiguously somewhere in `hay`. -/
def pyInChars (needle : List Char) : List Char → Bool
  | [] => headMatch needle []
  | d :: ds => headMatch needle (d :: ds) || pyInChars needle ds

/-- Python `needle in hay` on strings: substring containment. -/
def pyIn (needle hay : String) : Bool := pyInChars needle.data hay.data

/-- The text predicate of the `index` route: the lowered query occurs in
the lowered `title`, `notes` or `url`. -/
def text_match (q : String) (l : Link) : Bool :=
  pyIn (pyLower q) (pyLower l.title) || pyIn (pyLower q) (pyLower l.notes) ||
    pyIn (pyLower q) (pyLower l.url)

/-- The text filter of the `index` route, guarded by `if q:` — an empty
query applies no filter. -/
def filter_by_text (links : List Link) (q : String) : List Link :=
  if q = "" then links else links.filter (text_match q)

/-- The category predicate of the `index` route:
`(l.get('category','') or '').lower() == cat.lower()`. -/
def cat_match (cat : String) (l : Link) : Bool :=
  pyLower l.category == pyLower cat

/-- The category filter of the `index` route, guarded by `if cat:` — an
empty category argument applies no filter. -/
def filter_by_category (links : List Link) (cat : String) : List Link :=
  if cat = "" then links else links.filter (cat_match cat)

/-- The filtering pipeline of the `index` route: the category filter, then
the text filter, over one loaded snapshot. -/
def index_filter (links : List Link) (q cat : String) : List Link :=
  filter_by_text (filter_by_category links cat) q

/-- The lookup in `redirect_link`:
`next((l for l in links if l.get('id') == link_id), None)`. -/
def find_by_id (links : List Link) (link_id : Int) : Option Link :=
  links.find? (fun l => l.id == link_id)

/-- `/r/<int:link_id>`: load the collection, look the id up, redirect to
the stored url or `abort(404)`. -/
def redirect_link (fs : FS) (now : String) (link_id : Int) :
    Except Err (String × FS) :=
  match load_links fs now with
  | .error e => .error e
  | .ok (links, fs1) =>
      match find_by_id links link_id with
      | none => .error .notFound
      | some l => .ok (l.url, fs1)

/-- `/admin/add` (POST): the password gate, then stripping and validating
the form fields, URL normalization, and one load–append–save cycle.
Returns the outcome and the filesystem as the handler leaves it. -/
def admin_add (adminPassword pw title url category notes : String)
    (fs : FS) (now : String) : Except Err Unit × FS :=
  if pw ≠ adminPassword then (.error .forbidden, fs)
  else
    let title := pyStrip title
    let url := pyStrip url
    let category := pyStrip category
    let notes := pyStrip notes
    if title = "" ∨ url = "" then (.error .validationError, fs)
    else
      let url := normalize_url url
      match load_links fs now with
      | .error e => (.error e, fs)
      | .ok (links, fs1) =>
          let new : Link :=
            { id := next_id links, title := title, url := url,
              notes := notes, category := category,
              created := timestamp now }
          match save_links (links ++ [new]) fs1 with
          | .error e => (.error e, fs1)
          | .ok fs2 => (.ok (), fs2)

/-- `/admin/delete` (POST): the password gate, then `int(form['id'])`
(`none` models a missing or non-numeric field, `abort(400)`), then one
load–filter–save cycle. -/
def admin_delete (adminPassword pw : String) (idField : Option Int)
    (fs : FS) (now : String) : Except Err Unit × FS :=
  if pw ≠ adminPassword then (.error .forbidden, fs)
  else
    match idField with
    | none => (.error .validationError, fs)
    | some lid =>
        match load_links fs now with
        | .error e => (.error e, fs)
        | .ok (links, fs1) =>
            match save_links (links.filter (fun l => l.id != lid)) fs1 with
            | .error e => (.error e, fs1)
            | .ok fs2 => (.ok (), fs2)

end LinkHub

namespace LinkHub

/-! ### Helper lemmas -/

theorem le_pyMax_self (x : Int) (xs : List Int) : x ≤ pyMax x xs := by
  induction xs generalizing x with
  | nil => simp [pyMax]
  | cons y ys ih =>
      calc x ≤ max x y := le_max_left x y
        _ ≤ pyMax (max x y) ys := ih (max x y)
        _ = pyMax x (y :: ys) := rfl

theorem le_pyMax_of_mem {y : Int} {xs : List Int} (x : Int) (h : y ∈ xs) :
    y ≤ pyMax x xs := by
  induction xs generalizing x with
  | nil => cases h
  | cons z zs ih =>
      rcases List.mem_cons.mp h with rfl | hz
      · exact le_trans (le_max_right x y) (le_pyMax_self (max x y) zs)
      · exact ih (max x z) hz

theorem pyMax_mem (x : Int) (xs : List Int) : pyMax x xs ∈ x :: xs := by
  induction xs generalizing x with
  | nil => simp [pyMax]
  | cons y ys ih =>
      have h : pyMax (max x y) ys ∈ max x y :: ys := ih (max x y)
      show pyMax (max x y) ys ∈ x :: y :: ys
      rcases List.mem_cons.mp h with h1 | h1
      · rcases max_choice x y with hx | hy
        · rw [h1, hx]; exact List.mem_cons_self _ _
        · rw [h1, hy]; exact List.mem_cons.mpr (Or.inr (List.mem_cons_self _ _))
      · exact List.mem_cons.mpr (Or.inr (List.mem_cons.mpr (Or.inr h1)))

theorem id_lt_next_id {l : Link} {links : List Link} (h : l ∈ links) :
    l.id < next_id links := by
  match links, h with
  | l0 :: ls, h =>
      have hle : l.id ≤ pyMax l0.id (ls.map (fun x => x.id)) := by
        rcases List.mem_cons.mp h with rfl | hmem
        · exact le_pyMax_self _ _
        · exact le_pyMax_of_mem _ (List.mem_map_of_mem _ hmem)
      have h2 : l.id < pyMax l0.id (ls.map (fun x => x.id)) + 1 :=
        Int.lt_add_one_iff.mpr hle
      simpa [next_id] using h2

theorem timestamp_ne_empty (now : String) : timestamp now ≠ "" := by
  intro h
  have h2 := congrArg String.data h
  simp [timestamp] at h2

theorem find_by_id_append_new (links : List Link) (new : Link)
    (h : ∀ l ∈ links, l.id ≠ new.id) :
    find_by_id (links ++ [new]) new.id = some new := by
  induction links with
  | nil => simp [find_by_id, List.find?]
  | cons l ls ih =>
      have hne : (l.id == new.id) = false := by
        simpa using h l (List.mem_cons_self l ls)
      have ih2 := ih (fun x hx => h x (List.mem_cons_of_mem l hx))
      simpa [find_by_id, List.find?, hne] using ih2

end LinkHub

namespace LinkHub

/-- C3: `next_id` returns 1 on the empty collection; otherwise the value
returned, less one, is an id of the collection and an upper bound of all
its ids (the maximum id); on a collection with ids {1,3,5} it returns 6. -/
theorem next_id_spec :
    next_id ([] : List Link) = 1
    ∧ (∀ links : List Link, links ≠ [] →
        (next_id links - 1) ∈ links.map (fun l => l.id)
        ∧ ∀ i ∈ links.map (fun l => l.id), i ≤ next_id links - 1)
    ∧ next_id [⟨1, "a", "u", "", "", ""⟩, ⟨3, "b", "u", "", "", ""⟩,
        ⟨5, "c", "u", "", "", ""⟩] = 6 := by
  refine ⟨rfl, ?_, by decide⟩
  intro links hne
  match links, hne with
  | l :: ls, _ =>
      have hrw : next_id (l :: ls) - 1 = pyMax l.id (ls.map (fun x => x.id)) := by
        simp [next_id]
      constructor
      · rw [hrw]
        exact pyMax_mem l.id (ls.map (fun x => x.id))
      · intro i hi
        rw [hrw]
        rcases List.mem_cons.mp hi with h1 | h1
        · rw [h1]; exact le_pyMax_self _ _
        · exact le_pyMax_of_mem _ h1

/-- C4: on a writable filesystem where the durable document is absent,
`load_links` writes the seed and returns exactly three links with ids
1, 2, 3, each with a non-empty `created` stamp, and afterwards the durable
document exists. -/
theorem load_links_seeds (now : String) :
    ∃ seeded : List Link,
      load_links ⟨.absent, true⟩ now = .ok (seeded, ⟨.parses seeded, true⟩)
      ∧ seeded.length = 3
      ∧ seeded.map (fun l => l.id) = [1, 2, 3]
      ∧ (∀ l ∈ seeded, l.created ≠ "")
      ∧ DocState.parses seeded ≠ DocState.absent := by
  refine ⟨seededLinks now, rfl, rfl, rfl, ?_, by simp⟩
  intro l hl
  have hc : l.created = timestamp now := by
    simp [seededLinks, DEFAULT_LINKS] at hl
    rcases hl with rfl | rfl | rfl <;> rfl
  rw [hc]
  exact timestamp_ne_empty now

/-- C5 counterexample: with the durable document present but unreadable (a
permission failure), `load_links` does not fail with any error — in
particular not with `storageUnavailable` — but returns the empty
collection. -/
theorem load_links_unreadable_cex :
    load_links ⟨.unreadable, true⟩ "2024-01-01T00:00:00" 
      = .ok ([], ⟨.unreadable, true⟩)
    ∧ ∀ e : Err,
        load_links ⟨.unreadable, true⟩ "2024-01-01T00:00:00"  ≠ .error e := by
  refine ⟨rfl, ?_⟩
  intro e h
  rw [show load_links ⟨.unreadable, true⟩ "2024-01-01T00:00:00" 
      = .ok ([], ⟨.unreadable, true⟩) from rfl] at h
  exact Except.noConfusion h

/-- C5 amended: `load_links` returns the empty collection both when the
existing document cannot be read (for example a permission failure) and
when it is corrupt (a parse failure); the read path never surfaces
`storageUnavailable`. -/
theorem load_links_degrades_to_empty (fs : FS) (now : String)
    (h : fs.doc = .corrupt ∨ fs.doc = .unreadable) :
    load_links fs now = .ok ([], fs) := by
  rcases fs with ⟨doc, w⟩
  rcases h with h | h <;> (simp only at h; subst h; rfl)

/-- C5 amended, witness: a corrupt document loads as the empty
collection. -/
theorem load_links_degrades_to_empty_witness :
    load_links ⟨.corrupt, true⟩ "t" = .ok ([], ⟨.corrupt, true⟩) :=
  load_links_degrades_to_empty ⟨.corrupt, true⟩ "t" (Or.inl rfl)

/-- C10: both admin handlers compare the secret before validation, load or
write: on a mismatched secret they fail with `forbidden` and leave the
filesystem untouched, whatever the other inputs (including an empty title
or a missing/non-numeric id). -/
theorem admin_secret_gate (adminPassword pw title url category notes now : String)
    (idField : Option Int) (fs : FS) (h : pw ≠ adminPassword) :
    admin_add adminPassword pw title url category notes fs now
      = (.error .forbidden, fs)
    ∧ admin_delete adminPassword pw idField fs now
      = (.error .forbidden, fs) := by
  constructor
  · simp only [admin_add, if_pos h]
  · simp only [admin_delete, if_pos h]

/-- C10 witness: a wrong secret is rejected with `forbidden` even with an
empty title, a missing id, and no durable document, which stays absent. -/
theorem admin_secret_gate_witness :
    admin_add "changeme" "wrong" "" "" "" "" ⟨.absent, true⟩ "t"
      = (.error .forbidden, ⟨.absent, true⟩)
    ∧ admin_delete "changeme" "wrong" none ⟨.absent, true⟩ "t"
      = (.error .forbidden, ⟨.absent, true⟩) :=
  admin_secret_gate "changeme" "wrong" "" "" "" "" "t" none ⟨.absent, true⟩
    (by decide)

end LinkHub

namespace LinkHub

/-- C2: with the correct admin secret, when the submitted title or url is
empty after stripping, `admin_add` fails with `validationError` — an error
kind distinct from `storageUnavailable` — and leaves the filesystem, hence
the stored collection, untouched. -/
theorem admin_add_validation (adminPassword title url category notes now : String)
    (fs : FS) (h : pyStrip title = "" ∨ pyStrip url = "") :
    admin_add adminPassword adminPassword title url category notes fs now
      = (.error .validationError, fs)
    ∧ Err.validationError ≠ Err.storageUnavailable := by
  refine ⟨?_, by decide⟩
  simp only [admin_add]
  rw [if_neg (fun hc : adminPassword ≠ adminPassword => hc rfl), if_pos h]

/-- C2 witness: an empty title is rejected with `validationError` and the
stored collection is unchanged. -/
theorem admin_add_validation_witness :
    admin_add "changeme" "changeme" "" "example.com" "" "" ⟨.parses [], true⟩ "t"
      = (.error .validationError, ⟨.parses [], true⟩)
    ∧ Err.validationError ≠ Err.storageUnavailable :=
  admin_add_validation "changeme" "" "example.com" "" "" "t" ⟨.parses [], true⟩
    (Or.inl rfl)

/-- C6: with the correct secret, deleting an id that is not in the stored
collection does not error, and the persisted collection after the
operation equals the collection before it. -/
theorem admin_delete_absent_id (adminPassword now : String) (lid : Int)
    (links : List Link) (h : ∀ l ∈ links, l.id ≠ lid) :
    admin_delete adminPassword adminPassword (some lid) ⟨.parses links, true⟩ now
      = (.ok (), ⟨.parses links, true⟩) := by
  have hfilter : links.filter (fun l => l.id != lid) = links := by
    apply List.filter_eq_self.mpr
    intro l hl
    simpa using h l hl
  simp only [admin_delete]
  rw [if_neg (fun hc : adminPassword ≠ adminPassword => hc rfl)]
  simp [load_links, save_links, hfilter]

/-- C6 witness: deleting id 2 from a collection holding only id 1 succeeds
and persists the same collection. -/
theorem admin_delete_absent_id_witness :
    admin_delete "changeme" "changeme" (some 2)
      ⟨.parses [⟨1, "a", "u", "", "", ""⟩], true⟩ "t"
      = (.ok (), ⟨.parses [⟨1, "a", "u", "", "", ""⟩], true⟩) :=
  admin_delete_absent_id "changeme" "t" 2 [⟨1, "a", "u", "", "", ""⟩] (by decide)

end LinkHub

namespace LinkHub

/-- C7: the text filter keeps exactly the links whose lowered title, notes
or url contains the lowered query as a substring, as a sublist of the
collection; the empty query returns the collection unchanged; and the
query "git" picks out exactly the link titled "GitHub" from the default
collection. -/
theorem filter_by_text_spec :
    (∀ (links : List Link) (q : String) (l : Link),
        l ∈ filter_by_text links q ↔
          l ∈ links ∧ (q ≠ "" →
            (pyIn (pyLower q) (pyLower l.title)
              || pyIn (pyLower q) (pyLower l.notes)
              || pyIn (pyLower q) (pyLower l.url)) = true))
    ∧ (∀ (links : List Link) (q : String), (filter_by_text links q).Sublist links)
    ∧ (∀ links : List Link, filter_by_text links "" = links)
    ∧ filter_by_text DEFAULT_LINKS "git"
        = [{ id := 2, title := "GitHub", url := "https://github.com",
             notes := "Code hosting", category := "Dev", created := "" }] := by
  refine ⟨?_, ?_, ?_, by decide⟩
  · intro links q l
    by_cases hq : q = ""
    · subst hq; simp [filter_by_text]
    · simp [filter_by_text, hq, List.mem_filter, text_match]
  · intro links q
    by_cases hq : q = ""
    · subst hq; simp [filter_by_text]
    · simp only [filter_by_text, if_neg hq]
      exact List.filter_sublist _
  · intro links
    simp [filter_by_text]

/-- C8: the category filter keeps exactly the links whose lowered category
equals the lowered argument, as a sublist of the collection; the empty
argument returns the collection unchanged; and the argument "dev" picks
out exactly the link with category "Dev" from the default collection. -/
theorem filter_by_category_spec :
    (∀ (links : List Link) (cat : String) (l : Link),
        l ∈ filter_by_category links cat ↔
          l ∈ links ∧ (cat ≠ "" → (pyLower l.category == pyLower cat) = true))
    ∧ (∀ (links : List Link) (cat : String),
        (filter_by_category links cat).Sublist links)
    ∧ (∀ links : List Link, filter_by_category links "" = links)
    ∧ filter_by_category DEFAULT_LINKS "dev"
        = [{ id := 2, title := "GitHub", url := "https://github.com",
             notes := "Code hosting", category := "Dev", created := "" }] := by
  refine ⟨?_, ?_, ?_, by decide⟩
  · intro links cat l
    by_cases hc : cat = ""
    · subst hc; simp [filter_by_category]
    · simp [filter_by_category, hc, List.mem_filter, cat_match]
  · intro links cat
    by_cases hc : cat = ""
    · subst hc; simp [filter_by_category]
    · simp only [filter_by_category, if_neg hc]
      exact List.filter_sublist _
  · intro links
    simp [filter_by_category]

/-- C9: `index`'s pipeline — the category filter then the text filter —
equals the text filter then the category filter: both are applied (AND
semantics) and the order of application does not affect the result. -/
theorem filters_commute (links : List Link) (cat q : String) :
    index_filter links q cat
      = filter_by_category (filter_by_text links q) cat := by
  unfold index_filter filter_by_text filter_by_category
  by_cases hq : q = "" <;> by_cases hc : cat = "" <;>
    simp [hq, hc, List.filter_filter, Bool.and_comm]

end LinkHub

namespace LinkHub

/-- C1 counterexample: `admin_add` stores the stripped form fields, so a
submitted title with surrounding whitespace (" a ") is persisted as "a",
and looking the new link up by its id yields a title different from the
submitted value. -/
theorem admin_add_stores_stripped_cex :
    admin_add "changeme" "changeme" " a " "http://x" "" "" ⟨.parses [], true⟩ "t"
      = (.ok (), ⟨.parses [{ id := 1, title := "a", url := "http://x",
                              notes := "", category := "", created := "tZ" }],
          true⟩)
    ∧ (find_by_id [{ id := 1, title := "a", url := "http://x", notes := "",
                     category := "", created := "tZ" }] 1).map Link.title
        = some "a"
    ∧ some ("a" : String) ≠ some " a " := by
  refine ⟨rfl, rfl, by decide⟩

/-- C1 amended: for every valid add (title and url non-empty after
stripping) with the correct secret over a readable, writable store,
`admin_add` succeeds and persists the collection extended by one new link;
`find_by_id` on the new link's id over the collection a fresh `load_links`
returns yields that link, whose title, notes and category are the stripped
submitted values, whose url is the stripped submitted url prefixed with
"https://" exactly when it lacks a scheme, and whose `created` holds the
(non-empty) timestamp. -/
theorem admin_add_then_find (adminPassword title url category notes now : String)
    (links : List Link)
    (hT : pyStrip title ≠ "") (hU : pyStrip url ≠ "") :
    ∃ newLink : Link,
      admin_add adminPassword adminPassword title url category notes
          ⟨.parses links, true⟩ now
        = (.ok (), ⟨.parses (links ++ [newLink]), true⟩)
      ∧ load_links ⟨.parses (links ++ [newLink]), true⟩ now
          = .ok (links ++ [newLink], ⟨.parses (links ++ [newLink]), true⟩)
      ∧ find_by_id (links ++ [newLink]) newLink.id = some newLink
      ∧ newLink.title = pyStrip title
      ∧ newLink.url = (if hasScheme (pyStrip url) then pyStrip url
          else "https://" ++ pyStrip url)
      ∧ newLink.notes = pyStrip notes
      ∧ newLink.category = pyStrip category
      ∧ newLink.created = timestamp now
      ∧ newLink.created ≠ "" := by
  have hval : ¬(pyStrip title = "" ∨ pyStrip url = "") := fun hc => hc.elim hT hU
  refine ⟨{ id := next_id links, title := pyStrip title,
            url := normalize_url (pyStrip url), notes := pyStrip notes,
            category := pyStrip category, created := timestamp now },
    ?_, rfl, ?_, rfl, rfl, rfl, rfl, rfl, timestamp_ne_empty now⟩
  · simp only [admin_add]
    rw [if_neg (fun hc : adminPassword ≠ adminPassword => hc rfl), if_neg hval]
    simp [load_links, save_links]
  · apply find_by_id_append_new
    intro l hl
    exact ne_of_lt (id_lt_next_id hl)

/-- C1 amended, witness: adding "Example" / "example.com" to the empty
stored collection persists one link with id 1, url "https://example.com"
and created stamp "2024-01-01T00:00:00Z", and the lookup finds it. -/
theorem admin_add_then_find_witness :
    ∃ newLink : Link,
      admin_add "changeme" "changeme" "Example" "example.com" "Dev" "note"
          ⟨.parses [], true⟩ "2024-01-01T00:00:00" 
        = (.ok (), ⟨.parses ([] ++ [newLink]), true⟩)
      ∧ load_links ⟨.parses ([] ++ [newLink]), true⟩ "2024-01-01T00:00:00" 
          = .ok ([] ++ [newLink], ⟨.parses ([] ++ [newLink]), true⟩)
      ∧ find_by_id ([] ++ [newLink]) newLink.id = some newLink
      ∧ newLink.title = pyStrip "Example"
      ∧ newLink.url = (if hasScheme (pyStrip "example.com") then pyStrip "example.com"
          else "https://" ++ pyStrip "example.com")
      ∧ newLink.notes = pyStrip "note"
      ∧ newLink.category = pyStrip "Dev"
      ∧ newLink.created = timestamp "2024-01-01T00:00:00" 
      ∧ newLink.created ≠ "" :=
  admin_add_then_find "changeme" "Example" "example.com" "Dev" "note"
    "2024-01-01T00:00:00" [] (by decide) (by decide)

end LinkHub
